import Mathlib

/-!
Verification development for the cf_speedtest throughput measurement tool
(`src/main.rs`).  The Rust source is embedded shallowly:

* atomic `u64` counters are modelled as `ℕ` (the byte quantities involved
  stay far below `2 ^ 64`, so wraparound is not reachable in any claim);
* `f64` arithmetic in the scaling comparison is modelled exactly over `ℚ`
  (all concrete quantities appearing in the claims are small integers whose
  comparisons have large margins, so rounding cannot flip any of them);
* `i32` arithmetic is modelled as `ℤ` with explicit reduction mod `2 ^ 32`
  where the source can overflow (release-mode wrapping semantics);
* the worker threads and the controller loop are modelled as functions over
  explicit environment traces (per-session results, signal observations,
  and the main-thread event order).
-/

/-! ## Adaptive scaling decision (main.rs lines 340-351 and 450-461) -/

/-- `&down_measurements[len-3..]` — the last three per-tick samples. -/
def last_3 (m : List ℕ) : List ℕ := m.drop (m.length - 3)

/-- `&down_measurements[len-6..len-3]` — the three samples before those. -/
def prev_3 (m : List ℕ) : List ℕ := (m.drop (m.length - 6)).take 3

/-- `last_3.iter().sum::<u64>() / 3` — integer-truncated average. -/
def last_3_avg (m : List ℕ) : ℕ := (last_3 m).sum / 3

/-- `prev_3.iter().sum::<u64>() / 3` — integer-truncated average. -/
def prev_3_avg (m : List ℕ) : ℕ := (prev_3 m).sum / 3

/-- The comparison at lines 349/459:
`last_3_avg as f64 > prev_3_avg as f64 + ((prev_3_avg as f64/3.0)*0.2)`,
with the `f64` arithmetic modelled exactly over `ℚ`. -/
def scale_trigger (m : List ℕ) : Bool :=
  decide ((last_3_avg m : ℚ) > (prev_3_avg m : ℚ) + ((prev_3_avg m : ℚ) / 3) * (2 / 10))

/-- The complete per-tick scaling decision: the trend comparison is only made
once the measurement history holds more than 6 samples (lines 340/450). -/
def scale_decision (m : List ℕ) : Bool :=
  decide (m.length > 6) && scale_trigger m

/-- Modelled from the spec: the scaling decision as the specification words it,
`last3 > prev3 × 1.2` (at least 20% relative growth), on the same
integer-truncated three-sample averages.  Used only to compare the source
comparison against the spec comparison. -/
def spec_scale_decision (m : List ℕ) : Bool :=
  decide (m.length > 6) &&
    decide ((last_3_avg m : ℚ) > (prev_3_avg m : ℚ) * (12 / 10))

/-- The scaling comparison computed on the exact three-sample sums, with no
integer truncation of the averages: `last3sum > prev3sum * 16/15` is the
truncation-free form of the source comparison. -/
def scale_decision_exact (m : List ℕ) : Bool :=
  decide (m.length > 6) &&
    decide (((last_3 m).sum : ℚ) > ((prev_3 m).sum : ℚ) * (16 / 15))

/-! ## UploadHelper (main.rs lines 22-47)

`UploadHelper::read` is the body-producing step of an upload session: the two
`AtomicU64` counters and the `AtomicBool` exit signal it reads are modelled as
plain fields, and one `read(buf)` call maps the state to the returned byte
count plus the updated state. -/

structure UploadHelper where
  bytes_to_send : ℕ
  byte_ctr : ℕ
  total_uploaded_counter : ℕ
  exit_signal : Bool
deriving DecidableEq

/-- `UploadHelper::read` (lines 23-38): returns 0 if the session counter has
reached `bytes_to_send` or the exit signal is set; otherwise fills the whole
buffer and adds its length to both counters. -/
def UploadHelper.read (s : UploadHelper) (buf_len : ℕ) : ℕ × UploadHelper :=
  if s.bytes_to_send ≤ s.byte_ctr ∨ s.exit_signal = true then
    (0, s)
  else
    (buf_len,
      { s with
        byte_ctr := s.byte_ctr + buf_len,
        total_uploaded_counter := s.total_uploaded_counter + buf_len })

/-! ## get_appropriate_byte_unit (main.rs lines 64-109)

Only the unit-selection cascade matters for the claims: we model the chosen
byte-unit character together with the divisor applied to `bytes` in that
branch.  The thresholds `1024i32.pow(k)` are `i32` computations that wrap
(release semantics) before being cast to `f64`; the wrapped values
(`2^20`, `2^30`, `0`) are all exactly representable in `f64`, as is the
comparison with `bytes as f64` at these magnitudes, so the comparisons are
modelled over `ℤ`. -/

/-- `1024i32.pow(e)` with release-mode wrapping: the mathematical power reduced
mod `2 ^ 32` and reinterpreted as a signed 32-bit value. -/
def i32_wrapping_pow (b e : ℕ) : ℤ :=
  if (b ^ e) % 2 ^ 32 < 2 ^ 31 then
    ((b ^ e) % 2 ^ 32 : ℕ)
  else
    ((b ^ e) % 2 ^ 32 : ℕ) - 2 ^ 32

/-- The branch cascade of `get_appropriate_byte_unit`: the selected unit
character and the divisor applied to `bytes` in that branch (the first branch
divides by nothing, i.e. by 1). -/
def get_appropriate_byte_unit_sel (bytes : ℕ) : Char × ℤ :=
  if (bytes : ℤ) < 1024 then (Char.ofNat 0, 1)
  else if (bytes : ℤ) < i32_wrapping_pow 1024 2 then ('K', 1024)
  else if (bytes : ℤ) < i32_wrapping_pow 1024 3 then ('M', i32_wrapping_pow 1024 2)
  else if (bytes : ℤ) < i32_wrapping_pow 1024 4 then ('G', i32_wrapping_pow 1024 3)
  else ('T', i32_wrapping_pow 1024 4)

/-! ## Download session loop (download_test, main.rs lines 194-239)

One download session reads the response body chunk by chunk; each loop
iteration first polls the exit signal, then performs one chunk read.  The
environment trace supplies, per iteration, the exit-signal value observed and
the number of bytes the read yields.  `total` is `total_bytes_sank`. -/

inductive DlOutcome
  | violation
  | endOfStream
  | stoppedBySignal
  | pending
deriving DecidableEq

/-- The `loop` of `download_test` (lines 206-236): on a zero-byte read with
`total_bytes_sank == 0` the code panics ("Cloudflare is sending us empty
responses?!"), modelled as `DlOutcome.violation`; a later zero-byte read
breaks normally (`endOfStream`).  A trace too short to end the session yields
`pending`. -/
def download_session_loop : ℕ → List (Bool × ℕ) → DlOutcome
  | _, [] => DlOutcome.pending
  | total, (stop, n) :: rest =>
    if stop then DlOutcome.stoppedBySignal
    else if n = 0 then
      (if total = 0 then DlOutcome.violation else DlOutcome.endOfStream)
    else download_session_loop (total + n) rest

/-! ## Worker session loops (main.rs lines 286-313, 356-375, 409-429, 465-483)

Each worker thread repeatedly performs transfer sessions.  The environment
trace supplies, per session, the session result and the values a worker could
observe right after the session: the shared exit signal and whether the
current time has passed the worker's deadline value.  Each worker function
returns the number of sessions the worker performs on that trace. -/

inductive SessionResult
  | ok
  | err
deriving DecidableEq

structure WorkerEnv where
  result : SessionResult
  exit_signal : Bool
  deadline_passed : Bool
deriving DecidableEq

/-- Download worker loop (lines 295-310, identical for the later-spawned
download workers at lines 359-374): on `Err` it logs and returns; otherwise it
returns if the exit signal is set, else starts another session. -/
def download_worker_sessions : List WorkerEnv → ℕ
  | [] => 0
  | e :: rest =>
    1 + (match e.result with
         | SessionResult.err => 0
         | SessionResult.ok =>
           if e.exit_signal then 0 else download_worker_sessions rest)

/-- Initial upload worker loop (lines 413-426) over abstract session results:
on `Err` it logs and does NOT return; it returns only when the current time
has passed the `up_deadline` value captured at spawn time, and it never reads
the exit signal between sessions.  (In the deployed program `upload_test`
never actually returns `Err` — see `upload_test_result` — so the result
component is always `ok` on realizable traces; this loop's control flow
ignores it either way.) -/
def initial_upload_worker_sessions : List WorkerEnv → ℕ
  | [] => 0
  | e :: rest =>
    1 + (if e.deadline_passed then 0 else initial_upload_worker_sessions rest)

/-- Later-spawned upload worker loop (lines 467-482) over abstract session
results: on `Err` it logs and returns; otherwise it returns if the exit
signal is set.  (The `Err` arm is unreachable in the deployed program, since
`upload_test` never returns `Err` — see `upload_test_result`.) -/
def spawned_upload_worker_sessions : List WorkerEnv → ℕ
  | [] => 0
  | e :: rest =>
    1 + (match e.result with
         | SessionResult.err => 0
         | SessionResult.ok =>
           if e.exit_signal then 0 else spawned_upload_worker_sessions rest)

/-! ## The actual error behavior of upload_test (main.rs lines 171-191)

`upload_test` has two fallible steps.  The request itself,
`send(upload_helper)`, is unwrapped with `.expect("Couldn't create upload
request")` (line 185), so a transport failure there panics the worker thread.
The response drain `std::io::copy(&mut resp.into_reader(), ...)` (line 188)
has its result discarded by a `let _ =` binding.  Consequently `upload_test`
can never return `Err`: it either panics or returns `Ok(())`, and the `Err`
arms of both upload worker loops are dead code. -/

inductive UploadSessionEvent
  | clean
  | sendFails
  | drainFails
deriving DecidableEq

/-- What `upload_test` hands back to the worker loop for one session: `none`
models the thread dying in the `.expect` panic at line 185 (no value is ever
returned), `some r` a normal return.  A failure while draining the response
(line 188) is discarded, so the function still returns `Ok(())`. -/
def upload_test_result : UploadSessionEvent → Option SessionResult
  | UploadSessionEvent.clean => some SessionResult.ok
  | UploadSessionEvent.sendFails => none
  | UploadSessionEvent.drainFails => some SessionResult.ok

/-- Initial upload worker loop (lines 413-426) driven by `upload_test`'s real
behavior: a panic ends the thread (no further sessions); a normal return
falls through both match arms (line 415-420, no `return` in either arm) and
the loop continues unless the captured deadline has passed (line 423, the
Bool component of each step). -/
def initial_upload_worker_runs : List (UploadSessionEvent × Bool) → ℕ
  | [] => 0
  | (ev, deadline_passed) :: rest =>
    1 + match upload_test_result ev with
        | none => 0
        | some _ => if deadline_passed then 0 else initial_upload_worker_runs rest

/-- Later-spawned upload worker loop (lines 467-482) driven by `upload_test`'s
real behavior: a panic ends the thread; a normal `Err` return would log and
return (lines 471-474, unreachable); on `Ok` the loop returns if the exit
signal is set (line 478, the Bool component of each step). -/
def spawned_upload_worker_runs : List (UploadSessionEvent × Bool) → ℕ
  | [] => 0
  | (ev, stop) :: rest =>
    1 + match upload_test_result ev with
        | none => 0
        | some SessionResult.err => 0
        | some SessionResult.ok =>
          if stop then 0 else spawned_upload_worker_runs rest

/-! ## Controller main-thread event traces (main.rs lines 282-402, 405-498)

The main thread's own sequence of actions in a phase is deterministic up to
the per-tick scaling decisions, which we abstract as a `List Bool` (one
decision per tick).  Both phases have the same shape: spawn the initial
workers, reset the shared byte counter, run the tick loop (each tick samples,
and on a positive decision extends the deadline and spawns one worker), then
store `true` into the exit signal and join all workers. -/

inductive Ev
  | spawnWorker
  | resetCounter
  | sampleTick
  | extendDeadline
  | storeSignal (b : Bool)
  | joinAll
deriving DecidableEq

/-- The main-thread events of one tick of the controller loop
(lines 322-394 / 435-498): sample the counter, and on a positive scaling
decision extend the deadline by one and spawn one worker. -/
def tick_events (scale : Bool) : List Ev :=
  Ev.sampleTick :: (if scale then [Ev.extendDeadline, Ev.spawnWorker] else [])

/-- The main-thread events of one phase: spawn `init_workers` workers
(lines 286-313 / 409-429), reset the byte counter to 0 (line 316 / 433), run
the ticks, then set the exit signal (line 391 / 495) and join every handle
(lines 397-399 / 502-504). -/
def phase_trace (init_workers : ℕ) (scales : List Bool) : List Ev :=
  List.replicate init_workers Ev.spawnWorker ++
    Ev.resetCounter :: (scales.flatMap tick_events ++ [Ev.storeSignal true, Ev.joinAll])

/-- `exit_signal` is created holding `false` (line 283). -/
def exit_signal_init : Bool := false

/-- The whole program: the download phase, then `exit_signal.store(false)`
(line 402), then the upload phase.  Both phases start 4 workers
(lines 242-243). -/
def program_trace (down_scales up_scales : List Bool) : List Ev :=
  phase_trace 4 down_scales ++ Ev.storeSignal false :: phase_trace 4 up_scales

/-- One event's effect on the exit signal: only `storeSignal` writes it. -/
def signal_step (b : Bool) : Ev → Bool
  | Ev.spawnWorker => b
  | Ev.resetCounter => b
  | Ev.sampleTick => b
  | Ev.extendDeadline => b
  | Ev.storeSignal v => v
  | Ev.joinAll => b

/-- The exit-signal value after a sequence of main-thread events. -/
def signal_after (b : Bool) : List Ev → Bool
  | [] => b
  | e :: rest => signal_after (signal_step b e) rest

/-- Number of occurrences of an event in a trace. -/
def ev_count (x : Ev) : List Ev → ℕ
  | [] => 0
  | e :: rest => (if e = x then 1 else 0) + ev_count x rest

/-- Number of positive decisions in a list of per-tick scaling decisions. -/
def true_count : List Bool → ℕ
  | [] => 0
  | b :: rest => (if b then 1 else 0) + true_count rest

/-- The deadline after a sequence of main-thread events: it starts at
`now + 12` (lines 282/405) and each `extendDeadline` adds one second
(lines 351/461); nothing else writes it. -/
def deadline_after (start : ℕ) (t : List Ev) : ℕ :=
  start + 12 + ev_count Ev.extendDeadline t

/-! ## The shared byte counter's operations

Workers touch the shared counter only through `fetch_add` (lines 35-36, 235);
the main thread stores 0 into it once per phase (lines 316/433). -/

inductive CtrOp
  | reset
  | add (n : ℕ)
deriving DecidableEq

/-- The counter value after a sequence of operations. -/
def counter_after (c : ℕ) : List CtrOp → ℕ
  | [] => c
  | CtrOp.reset :: rest => counter_after 0 rest
  | CtrOp.add n :: rest => counter_after (c + n) rest


/-! ## Helper lemmas -/

theorem ev_count_append (x : Ev) (t t₂ : List Ev) :
    ev_count x (t ++ t₂) = ev_count x t + ev_count x t₂ := by
  induction t with
  | nil => simp [ev_count]
  | cons e rest ih => simp [ev_count, ih, Nat.add_assoc]

theorem ev_count_replicate (x y : Ev) (n : ℕ) :
    ev_count x (List.replicate n y) = if y = x then n else 0 := by
  induction n with
  | zero => simp [ev_count]
  | succ n ih =>
    rw [List.replicate_succ]
    by_cases h : y = x
    · subst h
      simp [ev_count, ih]
      omega
    · simp [ev_count, ih, h]

theorem ev_count_extend_flat (s : List Bool) :
    ev_count Ev.extendDeadline (s.flatMap tick_events) = true_count s := by
  induction s with
  | nil => simp [ev_count, true_count]
  | cons d rest ih =>
    rw [List.flatMap_cons, ev_count_append, ih]
    cases d <;> simp [tick_events, ev_count, true_count]

theorem ev_count_spawn_flat (s : List Bool) :
    ev_count Ev.spawnWorker (s.flatMap tick_events) = true_count s := by
  induction s with
  | nil => simp [ev_count, true_count]
  | cons d rest ih =>
    rw [List.flatMap_cons, ev_count_append, ih]
    cases d <;> simp [tick_events, ev_count, true_count]

theorem ev_count_reset_flat (s : List Bool) :
    ev_count Ev.resetCounter (s.flatMap tick_events) = 0 := by
  induction s with
  | nil => simp [ev_count]
  | cons d rest ih =>
    rw [List.flatMap_cons, ev_count_append, ih]
    cases d <;> simp [tick_events, ev_count]

theorem ev_count_store_flat (s : List Bool) (b : Bool) :
    ev_count (Ev.storeSignal b) (s.flatMap tick_events) = 0 := by
  induction s with
  | nil => simp [ev_count]
  | cons d rest ih =>
    rw [List.flatMap_cons, ev_count_append, ih]
    cases d <;> simp [tick_events, ev_count]

theorem signal_after_append (b : Bool) (t t₂ : List Ev) :
    signal_after b (t ++ t₂) = signal_after (signal_after b t) t₂ := by
  induction t generalizing b with
  | nil => simp [signal_after]
  | cons e rest ih => simp [signal_after, ih]

theorem signal_after_replicate_spawn (b : Bool) (n : ℕ) :
    signal_after b (List.replicate n Ev.spawnWorker) = b := by
  induction n with
  | zero => simp [signal_after]
  | succ n ih => rw [List.replicate_succ]; simp [signal_after, signal_step, ih]

theorem last_3_map_mul (m : List ℕ) (k : ℕ) :
    last_3 (m.map fun x => x * k) = (last_3 m).map fun x => x * k := by
  simp [last_3, List.map_drop, List.length_map]

theorem prev_3_map_mul (m : List ℕ) (k : ℕ) :
    prev_3 (m.map fun x => x * k) = (prev_3 m).map fun x => x * k := by
  simp [prev_3, List.map_drop, List.map_take, List.length_map]

theorem sum_map_mul (l : List ℕ) (k : ℕ) :
    (l.map fun x => x * k).sum = l.sum * k := by
  induction l with
  | nil => simp
  | cons a t ih => simp [ih, Nat.add_mul]

theorem signal_after_flat_ticks (b : Bool) (s : List Bool) :
    signal_after b (s.flatMap tick_events) = b := by
  induction s with
  | nil => simp [signal_after]
  | cons d rest ih =>
    rw [List.flatMap_cons, signal_after_append]
    cases d <;> simp [tick_events, signal_after, signal_step, ih]

/-! ## Claim theorems -/

/-- C10: in `get_appropriate_byte_unit`, the guard of the 'G' branch compares
against `1024i32.pow(4)`, which wraps to 0 in 32-bit arithmetic, so every
input with `1024^3 ≤ bytes < 1024^4` skips the 'G' branch and lands in the
'T' branch, where it is divided by that same wrapped-to-zero constant. -/
theorem byte_unit_gigabyte_overflow :
    i32_wrapping_pow 1024 4 = 0 ∧
    (∀ bytes : ℕ, 1024 ^ 3 ≤ bytes → bytes < 1024 ^ 4 →
      get_appropriate_byte_unit_sel bytes = ('T', i32_wrapping_pow 1024 4) ∧
      get_appropriate_byte_unit_sel bytes = ('T', 0)) := by
  have h4 : i32_wrapping_pow 1024 4 = 0 := by decide
  refine ⟨h4, ?_⟩
  intro bytes hlo _hhi
  have h2 : i32_wrapping_pow 1024 2 = 1024 ^ 2 := by decide
  have h3 : i32_wrapping_pow 1024 3 = 1024 ^ 3 := by decide
  have hb : (1024 : ℤ) ^ 3 ≤ (bytes : ℤ) := by exact_mod_cast hlo
  have hnot1 : ¬((bytes : ℤ) < 1024) := by nlinarith
  have hnot2 : ¬((bytes : ℤ) < i32_wrapping_pow 1024 2) := by rw [h2]; push_cast; nlinarith
  have hnot3 : ¬((bytes : ℤ) < i32_wrapping_pow 1024 3) := by rw [h3]; push_cast; nlinarith
  have hnot4 : ¬((bytes : ℤ) < i32_wrapping_pow 1024 4) := by
    rw [h4]
    exact not_lt.mpr (Int.natCast_nonneg bytes)
  rw [get_appropriate_byte_unit_sel, if_neg hnot1, if_neg hnot2, if_neg hnot3, if_neg hnot4, h4]
  exact ⟨rfl, rfl⟩

/-- C10 witness: the theorem applied at `bytes = 1024 ^ 3`. -/
theorem byte_unit_gigabyte_overflow_witness :
    1024 ^ 3 ≤ 1073741824 ∧ 1073741824 < 1024 ^ 4 ∧
    get_appropriate_byte_unit_sel 1073741824 = ('T', 0) :=
  ⟨by norm_num, by norm_num,
    (byte_unit_gigabyte_overflow.2 1073741824 (by norm_num) (by norm_num)).2⟩

/-- C9: `UploadHelper::read` returns 0 exactly when the session byte counter
has reached the quota or the exit signal is set; otherwise it reports a full
buffer and adds the buffer length to both the session counter and the shared
total.  Since the quota check precedes the full-buffer add, one session can
overshoot the quota by up to one buffer length minus one byte, so the quota
is a lower bound for where the stream ends, not an exact cap. -/
theorem upload_read_quota_semantics :
    (∀ (s : UploadHelper) (B : ℕ), 0 < B →
      ((s.read B).1 = 0 ↔ (s.bytes_to_send ≤ s.byte_ctr ∨ s.exit_signal = true))) ∧
    (∀ (s : UploadHelper) (B : ℕ),
      s.byte_ctr < s.bytes_to_send → s.exit_signal = false →
      (s.read B).1 = B ∧
      (s.read B).2.byte_ctr = s.byte_ctr + B ∧
      (s.read B).2.total_uploaded_counter = s.total_uploaded_counter + B) ∧
    (∀ (s : UploadHelper) (B : ℕ),
      s.byte_ctr < s.bytes_to_send → s.exit_signal = false →
      (s.read B).2.byte_ctr < s.bytes_to_send + B) ∧
    (UploadHelper.read ⟨1, 0, 0, false⟩ 8).2.byte_ctr = 1 + 8 - 1 := by
  have hcond : ∀ s : UploadHelper, s.byte_ctr < s.bytes_to_send → s.exit_signal = false →
      ¬(s.bytes_to_send ≤ s.byte_ctr ∨ s.exit_signal = true) := by
    intro s h1 h2
    rw [h2]
    simp
    omega
  refine ⟨?_, ?_, ?_, by decide⟩
  · intro s B hB
    by_cases h : s.bytes_to_send ≤ s.byte_ctr ∨ s.exit_signal = true
    · simp [UploadHelper.read, h]
    · simp [UploadHelper.read, h]
      omega
  · intro s B h1 h2
    simp [UploadHelper.read, hcond s h1 h2]
  · intro s B h1 h2
    simp [UploadHelper.read, hcond s h1 h2]
    omega

/-- C9 witness: the theorem applied at a concrete state with counter 3,
quota 10, buffer 4. -/
theorem upload_read_quota_semantics_witness :
    (3 : ℕ) < 10 ∧ (UploadHelper.read ⟨10, 3, 0, false⟩ 4).1 = 4 :=
  ⟨by norm_num, (upload_read_quota_semantics.2.1 ⟨10, 3, 0, false⟩ 4 (by norm_num) rfl).1⟩

/-- C6: a download session whose very first chunk read yields 0 bytes hits the
hard protocol-violation error; once any read of the session succeeded, a
zero-byte read ends the session normally and the violation can no longer be
raised. -/
theorem download_first_read_zero_violation :
    (∀ rest : List (Bool × ℕ),
      download_session_loop 0 ((false, 0) :: rest) = DlOutcome.violation) ∧
    (∀ (total : ℕ) (sched : List (Bool × ℕ)), 0 < total →
      download_session_loop total sched ≠ DlOutcome.violation) ∧
    (∀ (n : ℕ) (rest : List (Bool × ℕ)), 0 < n →
      download_session_loop 0 ((false, n) :: (false, 0) :: rest) = DlOutcome.endOfStream) := by
  have hne : ∀ (total : ℕ) (sched : List (Bool × ℕ)), 0 < total →
      download_session_loop total sched ≠ DlOutcome.violation := by
    intro total sched
    induction sched generalizing total with
    | nil => intro _ h; exact DlOutcome.noConfusion h
    | cons p rest ih =>
      obtain ⟨stop, n⟩ := p
      intro htot
      by_cases hs : stop
      · simp [download_session_loop, hs]
      · by_cases hn : n = 0
        · simp [download_session_loop, hs, hn, Nat.pos_iff_ne_zero.mp htot]
        · simp only [download_session_loop, if_neg hs, if_neg hn]
          exact ih (total + n) (by omega)
  refine ⟨fun rest => rfl, hne, ?_⟩
  intro n rest hn
  simp [download_session_loop, Nat.pos_iff_ne_zero.mp hn]

/-- C6 witness: the theorem applied to a session whose first read yields 7
bytes and whose second read yields 0. -/
theorem download_first_read_zero_violation_witness :
    (0 : ℕ) < 7 ∧
    download_session_loop 0 [(false, 7), (false, 0)] = DlOutcome.endOfStream :=
  ⟨by norm_num, download_first_read_zero_violation.2.2 7 [] (by norm_num)⟩

/-- C1: evaluation of the source scaling decision at measurement history
[0,1000,1000,1000,1199,1199,1199] (last3Avg = 1199, prev3Avg = 1000): the
source comparison `last_3_avg > prev_3_avg + (prev_3_avg/3)*0.2` scales,
while the claimed 20%-growth rule `last3 > prev3 * 1.2` — which is also what
the source's own comment announces — does not. -/
theorem scaling_threshold_code_eval :
    scale_decision [0, 1000, 1000, 1000, 1199, 1199, 1199] = true ∧
    spec_scale_decision [0, 1000, 1000, 1000, 1199, 1199, 1199] = false := by
  constructor
  · norm_num [scale_decision, scale_trigger, last_3_avg, prev_3_avg, last_3, prev_3]
  · norm_num [spec_scale_decision, last_3_avg, prev_3_avg, last_3, prev_3]

/-- C2 counterexample: multiplying every per-tick delta of the history
[0,5,5,5,5,6,6] by k = 3 flips the source's scaling decision from negative to
positive, so the decision is not invariant under scaling all deltas. -/
theorem scale_invariance_counterexample :
    scale_decision (List.map (fun x => x * 3) [0, 5, 5, 5, 5, 6, 6]) = true ∧
    scale_decision [0, 5, 5, 5, 5, 6, 6] = false := by
  constructor <;>
    norm_num [scale_decision, scale_trigger, last_3_avg, prev_3_avg, last_3, prev_3]

/-- C2 (amended): the source's integer-truncated decision is not
scale-invariant; the same comparison computed on the exact (untruncated)
three-sample sums is: for every positive factor k, scaling all deltas by k
leaves that decision unchanged. -/
theorem scale_decision_exact_scale_invariant :
    ∀ (m : List ℕ) (k : ℕ), 0 < k →
      scale_decision_exact (m.map fun x => x * k) = scale_decision_exact m := by
  intro m k hk
  have hk0 : (0 : ℚ) < (k : ℚ) := by exact_mod_cast hk
  unfold scale_decision_exact
  rw [List.length_map, last_3_map_mul, prev_3_map_mul, sum_map_mul, sum_map_mul]
  congr 1
  apply decide_eq_decide.mpr
  rw [gt_iff_lt, gt_iff_lt, Nat.cast_mul, Nat.cast_mul]
  rw [show ((prev_3 m).sum : ℚ) * (k : ℚ) * (16 / 15) =
      ((prev_3 m).sum : ℚ) * (16 / 15) * (k : ℚ) by ring]
  exact mul_lt_mul_right hk0

/-- C2 witness: the amended theorem applied at the history [0,5,5,5,5,6,6]
and k = 2. -/
theorem scale_decision_exact_scale_invariant_witness :
    0 < 2 ∧
    scale_decision_exact (List.map (fun x => x * 2) [0, 5, 5, 5, 5, 6, 6]) =
      scale_decision_exact [0, 5, 5, 5, 5, 6, 6] :=
  ⟨by norm_num, scale_decision_exact_scale_invariant [0, 5, 5, 5, 5, 6, 6] 2 (by norm_num)⟩

/-- C3 counterexample: a transport failure while draining the upload response
is discarded inside `upload_test` (main.rs line 188), so the worker — shown
here for both the initial and the later-spawned upload loop — performs a
second session: the failure is neither logged by the loop nor does it
terminate the worker. -/
theorem worker_error_termination_counterexample :
    initial_upload_worker_runs
      [(UploadSessionEvent.drainFails, false), (UploadSessionEvent.clean, true)] = 2 ∧
    spawned_upload_worker_runs
      [(UploadSessionEvent.drainFails, false), (UploadSessionEvent.clean, true)] = 2 := by
  constructor <;> rfl

/-- C3 (amended): download workers (initial and later-spawned) log a transport
failure during the body reads of a session and terminate, the failing session
being their last.  Upload workers never observe an `Err` from `upload_test`:
a failure while sending panics the thread via `.expect` (terminating it
without the loop's log), and a failure while draining the response is
discarded, after which the worker — initial or later-spawned alike —
continues with further sessions; the `Err` arms of both upload loops are
unreachable. -/
theorem worker_error_termination_amended :
    (∀ (stop dl : Bool) (rest : List WorkerEnv),
      download_worker_sessions (⟨SessionResult.err, stop, dl⟩ :: rest) = 1) ∧
    (∀ (pre rest : List WorkerEnv) (e : WorkerEnv), e.result = SessionResult.err →
      download_worker_sessions (pre ++ e :: rest) ≤ pre.length + 1) ∧
    (∀ (ev : UploadSessionEvent) (r : SessionResult),
      upload_test_result ev = some r → r = SessionResult.ok) ∧
    (∀ (ev : UploadSessionEvent) (flag : Bool) (rest : List (UploadSessionEvent × Bool)),
      upload_test_result ev = none →
      initial_upload_worker_runs ((ev, flag) :: rest) = 1 ∧
      spawned_upload_worker_runs ((ev, flag) :: rest) = 1) ∧
    (∀ rest : List (UploadSessionEvent × Bool),
      initial_upload_worker_runs ((UploadSessionEvent.drainFails, false) :: rest) =
        1 + initial_upload_worker_runs rest ∧
      spawned_upload_worker_runs ((UploadSessionEvent.drainFails, false) :: rest) =
        1 + spawned_upload_worker_runs rest) := by
  refine ⟨fun stop dl rest => rfl, ?_, ?_, ?_, fun rest => ⟨rfl, rfl⟩⟩
  · intro pre rest e he
    induction pre with
    | nil => simp [download_worker_sessions, he]
    | cons p t ih =>
      rw [List.cons_append]
      cases hp : p.result with
      | err => simp [download_worker_sessions, hp]
      | ok =>
        by_cases hs : p.exit_signal
        · simp [download_worker_sessions, hp, hs]
        · simp [download_worker_sessions, hp, hs, List.length_cons]
          omega
  · intro ev r h
    cases ev with
    | clean => exact (Option.some.injEq _ _).mp h.symm
    | sendFails => exact Option.noConfusion h
    | drainFails => exact (Option.some.injEq _ _).mp h.symm
  · intro ev flag rest h
    cases ev with
    | clean => exact Option.noConfusion h
    | sendFails => exact ⟨rfl, rfl⟩
    | drainFails => exact Option.noConfusion h

/-- C3 witness: the amended theorem applied to a download worker whose second
session fails (the download `Err` path is reachable via the read loop) and to
an upload worker whose send step panics. -/
theorem worker_error_termination_amended_witness :
    ((⟨SessionResult.err, false, false⟩ : WorkerEnv).result = SessionResult.err ∧
      download_worker_sessions
        ([⟨SessionResult.ok, false, false⟩] ++ ⟨SessionResult.err, false, false⟩ :: []) ≤ 2) ∧
    (upload_test_result UploadSessionEvent.sendFails = none ∧
      initial_upload_worker_runs
        [(UploadSessionEvent.sendFails, false), (UploadSessionEvent.clean, false)] = 1) :=
  ⟨⟨rfl, worker_error_termination_amended.2.1 [⟨SessionResult.ok, false, false⟩] []
      ⟨SessionResult.err, false, false⟩ rfl⟩,
    ⟨rfl, (worker_error_termination_amended.2.2.2.1 UploadSessionEvent.sendFails false
      [(UploadSessionEvent.clean, false)] rfl).1⟩⟩

/-- C5 counterexample: an initial upload worker starts a second session even
though the shared stop signal is already set after its first session, because
between sessions it consults only its captured deadline, never the stop
signal. -/
theorem worker_stop_polling_counterexample :
    initial_upload_worker_sessions
      [⟨SessionResult.ok, true, false⟩, ⟨SessionResult.ok, true, false⟩] = 2 := by
  decide

/-- C5 (amended): download workers and later-spawned upload workers decide
whether to start another session solely from the session result and the stop
signal observed between sessions (their session counts depend on nothing
else, and they never start a session after observing the signal set); the
initial upload workers instead depend solely on whether the current time has
passed the deadline captured at spawn. -/
theorem worker_stop_check_amended :
    (∀ l₁ l₂ : List WorkerEnv,
      l₁.map (fun e => (e.result, e.exit_signal)) =
        l₂.map (fun e => (e.result, e.exit_signal)) →
      download_worker_sessions l₁ = download_worker_sessions l₂ ∧
      spawned_upload_worker_sessions l₁ = spawned_upload_worker_sessions l₂) ∧
    (∀ l₁ l₂ : List WorkerEnv,
      l₁.map (fun e => e.deadline_passed) = l₂.map (fun e => e.deadline_passed) →
      initial_upload_worker_sessions l₁ = initial_upload_worker_sessions l₂) ∧
    (∀ (pre rest : List WorkerEnv) (e : WorkerEnv), e.exit_signal = true →
      download_worker_sessions (pre ++ e :: rest) ≤ pre.length + 1) ∧
    (∀ (pre rest : List WorkerEnv) (e : WorkerEnv), e.exit_signal = true →
      spawned_upload_worker_sessions (pre ++ e :: rest) ≤ pre.length + 1) := by
  refine ⟨?_, ?_, ?_, ?_⟩
  · intro l₁
    induction l₁ with
    | nil =>
      intro l₂ h
      cases l₂ with
      | nil => exact ⟨rfl, rfl⟩
      | cons e₂ t₂ => simp at h
    | cons e t ih =>
      intro l₂ h
      cases l₂ with
      | nil => simp at h
      | cons e₂ t₂ =>
        simp only [List.map_cons, List.cons.injEq, Prod.mk.injEq] at h
        obtain ⟨⟨hr, hs⟩, ht⟩ := h
        obtain ⟨ih1, ih2⟩ := ih t₂ ht
        constructor
        · simp only [download_worker_sessions, hr, hs, ih1]
        · simp only [spawned_upload_worker_sessions, hr, hs, ih2]
  · intro l₁
    induction l₁ with
    | nil =>
      intro l₂ h
      cases l₂ with
      | nil => rfl
      | cons e₂ t₂ => simp at h
    | cons e t ih =>
      intro l₂ h
      cases l₂ with
      | nil => simp at h
      | cons e₂ t₂ =>
        simp only [List.map_cons, List.cons.injEq] at h
        obtain ⟨hd, ht⟩ := h
        simp only [initial_upload_worker_sessions, hd, ih t₂ ht]
  · intro pre rest e he
    induction pre with
    | nil =>
      cases hp : e.result <;> simp [download_worker_sessions, hp, he]
    | cons p t ih =>
      rw [List.cons_append]
      cases hp : p.result with
      | err => simp [download_worker_sessions, hp]
      | ok =>
        by_cases hs : p.exit_signal
        · simp [download_worker_sessions, hp, hs]
        · simp [download_worker_sessions, hp, hs, List.length_cons]
          omega
  · intro pre rest e he
    induction pre with
    | nil =>
      cases hp : e.result <;> simp [spawned_upload_worker_sessions, hp, he]
    | cons p t ih =>
      rw [List.cons_append]
      cases hp : p.result with
      | err => simp [spawned_upload_worker_sessions, hp]
      | ok =>
        by_cases hs : p.exit_signal
        · simp [spawned_upload_worker_sessions, hp, hs]
        · simp [spawned_upload_worker_sessions, hp, hs, List.length_cons]
          omega

/-- C5 witness: the amended theorem applied to two one-session traces that
agree on result and stop signal but differ on the deadline flag. -/
theorem worker_stop_check_amended_witness :
    ([⟨SessionResult.ok, false, false⟩] : List WorkerEnv).map
        (fun e => (e.result, e.exit_signal)) =
      ([⟨SessionResult.ok, false, true⟩] : List WorkerEnv).map
        (fun e => (e.result, e.exit_signal)) ∧
    download_worker_sessions [⟨SessionResult.ok, false, false⟩] =
      download_worker_sessions [⟨SessionResult.ok, false, true⟩] :=
  ⟨rfl, (worker_stop_check_amended.1 [⟨SessionResult.ok, false, false⟩]
    [⟨SessionResult.ok, false, true⟩] rfl).1⟩

/-- C4 counterexample: in the main thread's event order for a phase, the first
worker spawn precedes the byte-counter reset, so the counter is not reset
before workers of the phase are running. -/
theorem counter_reset_order_counterexample :
    (phase_trace 4 []).indexOf Ev.spawnWorker <
      (phase_trace 4 []).indexOf Ev.resetCounter := by
  decide

/-- C4 (amended): each phase stores 0 into the shared byte counter exactly
once, and that store sits after the phase's initial worker spawns and before
the first sampling tick; apart from this single reset, the counter is touched
only by atomic additions, under which it never decreases. -/
theorem counter_reset_amended :
    (∀ (n : ℕ) (s : List Bool), ev_count Ev.resetCounter (phase_trace n s) = 1) ∧
    (∀ (n : ℕ) (s : List Bool),
      phase_trace n s = List.replicate n Ev.spawnWorker ++
        Ev.resetCounter :: (s.flatMap tick_events ++ [Ev.storeSignal true, Ev.joinAll])) ∧
    (∀ (c : ℕ) (ops : List CtrOp), CtrOp.reset ∉ ops → c ≤ counter_after c ops) := by
  refine ⟨?_, fun n s => rfl, ?_⟩
  · intro n s
    simp [phase_trace, ev_count_append, ev_count_replicate, ev_count_reset_flat, ev_count]
  · intro c ops h
    induction ops generalizing c with
    | nil => exact le_refl c
    | cons op rest ih =>
      cases op with
      | reset => exact absurd (List.mem_cons_self _ _) h
      | add n =>
        have hrest : CtrOp.reset ∉ rest := fun hm => h (List.mem_cons_of_mem _ hm)
        exact le_trans (Nat.le_add_right c n) (ih (c + n) hrest)

/-- C4 witness: the amended monotonicity applied to a counter at 5 and one
atomic addition of 3. -/
theorem counter_reset_amended_witness :
    CtrOp.reset ∉ [CtrOp.add 3] ∧ 5 ≤ counter_after 5 [CtrOp.add 3] :=
  ⟨by decide, counter_reset_amended.2.2 5 [CtrOp.add 3] (by decide)⟩

/-- C7: the stop signal is created false; each phase's trace stores true into
it exactly once and never stores false; the program trace resets it to false
exactly once, between the download phase (after its joins) and the upload
phase; and after any phase trace the signal reads true. -/
theorem stop_signal_invariant :
    exit_signal_init = false ∧
    (∀ (n : ℕ) (s : List Bool),
      ev_count (Ev.storeSignal true) (phase_trace n s) = 1) ∧
    (∀ (n : ℕ) (s : List Bool),
      ev_count (Ev.storeSignal false) (phase_trace n s) = 0) ∧
    (∀ ds us : List Bool,
      program_trace ds us = phase_trace 4 ds ++ Ev.storeSignal false :: phase_trace 4 us) ∧
    (∀ (b : Bool) (n : ℕ) (s : List Bool), signal_after b (phase_trace n s) = true) ∧
    (∀ ds : List Bool,
      signal_after exit_signal_init (phase_trace 4 ds ++ [Ev.storeSignal false]) = false) := by
  have hsig : ∀ (b : Bool) (n : ℕ) (s : List Bool),
      signal_after b (phase_trace n s) = true := by
    intro b n s
    simp [phase_trace, signal_after_append, signal_after_replicate_spawn,
      signal_after_flat_ticks, signal_after, signal_step]
  refine ⟨rfl, ?_, ?_, fun ds us => rfl, hsig, ?_⟩
  · intro n s
    simp [phase_trace, ev_count_append, ev_count_replicate, ev_count_store_flat, ev_count]
  · intro n s
    simp [phase_trace, ev_count_append, ev_count_replicate, ev_count_store_flat, ev_count]
  · intro ds
    rw [signal_after_append, hsig]
    rfl

/-- C8: the deadline derived from a trace never decreases as the trace
extends; a positive scaling decision contributes exactly one deadline
extension (one tick) and exactly one worker spawn to the phase trace, and a
negative decision contributes neither, so a phase spawns its initial workers
plus exactly one worker per positive decision. -/
theorem deadline_scaling_invariant :
    (∀ (start : ℕ) (t extra : List Ev),
      deadline_after start t ≤ deadline_after start (t ++ extra)) ∧
    tick_events true = [Ev.sampleTick, Ev.extendDeadline, Ev.spawnWorker] ∧
    tick_events false = [Ev.sampleTick] ∧
    (∀ (n : ℕ) (s : List Bool),
      ev_count Ev.extendDeadline (phase_trace n s) = true_count s) ∧
    (∀ (n : ℕ) (s : List Bool),
      ev_count Ev.spawnWorker (phase_trace n s) = n + true_count s) := by
  refine ⟨?_, rfl, rfl, ?_, ?_⟩
  · intro start t extra
    simp only [deadline_after, ev_count_append]
    omega
  · intro n s
    simp [phase_trace, ev_count_append, ev_count_replicate, ev_count_extend_flat, ev_count]
  · intro n s
    simp [phase_trace, ev_count_append, ev_count_replicate, ev_count_spawn_flat, ev_count]
